import Mathlib

/-
Verification of the rig virtual machine (crates rig-bytecode and rig-runtime).

The Rust sources are shallowly embedded as follows.

* `Value` mirrors `rig_runtime::Value`.  The `f64` payload of `Number` is kept
  abstract as a type parameter `α` together with a record `F64 α` of the host
  floating-point operations the interpreter invokes (`+`, `-`, `*`, `/`, `%`,
  `powf`, unary `-`, `==`, `partial_cmp`, and the `floor() as usize` cast used
  by element indexing).  Every theorem about arithmetic therefore states that
  the interpreter applies exactly the host double operation; witnesses
  instantiate `α := Int` with concrete computable operations.
* `Rc<RefCell<HashMap<..>>>` objects and `Rc<RefCell<Vec<..>>>` arrays are
  modelled by integer heap identifiers into the `objects` / `arrays` heaps of
  `VMState`; `Rc::ptr_eq` becomes identifier equality.  Hash maps are modelled
  as association lists where `mapInsert` prepends and `mapLookup` takes the
  first match, which is extensionally the insert/get behaviour the code uses.
* The scope stack and call stack are Lean lists with the head as the Rust
  `Vec` top (`push` = cons, `pop`/`last` = head); the scopes created by
  `VM::new` and `Call` are never aliased by the code, so they are stored
  directly rather than through the heap.
* Rust panics become `Except.error` values of `VMError`, one constructor per
  panic site, so that a fatal condition is distinguishable from a normal halt.
* `VM::run`'s `while` loop becomes the fuel-indexed `run`; `none` means the
  fuel ran out before the loop finished.  The `usize` cast in jump targets and
  the `pc += 1` increment wrap modulo `2 ^ 64` (release-mode semantics).
-/

namespace Rig

/-- Host floating-point interface: the operations of Rust `f64` that
`rig_runtime` calls.  `pcmp` is `f64::partial_cmp`, `beq` is `f64::eq`,
`floorUsize x` is `x.floor() as usize`. -/
structure F64 (α : Type) where
  add : α → α → α
  sub : α → α → α
  mul : α → α → α
  div : α → α → α
  fmod : α → α → α
  powf : α → α → α
  neg : α → α
  beq : α → α → Bool
  pcmp : α → α → Option Ordering
  floorUsize : α → Nat

/-- Mirror of `rig_runtime::Value`.  `object` and `array` hold heap
identifiers standing for the `Rc` pointers; `function` holds the `usize`
program-counter offset. -/
inductive Value (α : Type) where
  | undefined
  | null
  | boolean (b : Bool)
  | number (n : α)
  | string (s : String)
  | object (id : Nat)
  | array (id : Nat)
  | function (idx : Nat)
  deriving DecidableEq

/-- Mirror of `rig_bytecode::Instruction`.  Register operands are `u8` in the
source, embedded as `Fin 256`; `u32` pool/variable indices are `Nat`; `i32`
jump offsets are `Int` (the 32-bit wrap is applied where the engine uses
them, in `jumpTarget`). -/
inductive Instruction where
  | LoadConst (reg : Fin 256) (constIdx : Nat)
  | LoadUndefined (reg : Fin 256)
  | LoadNull (reg : Fin 256)
  | LoadBool (reg : Fin 256) (value : Bool)
  | Move (dst src : Fin 256)
  | Add (dst a b : Fin 256)
  | Sub (dst a b : Fin 256)
  | Mul (dst a b : Fin 256)
  | Div (dst a b : Fin 256)
  | Mod (dst a b : Fin 256)
  | Pow (dst a b : Fin 256)
  | Neg (dst a : Fin 256)
  | Eq (a b : Fin 256)
  | Lt (a b : Fin 256)
  | Le (a b : Fin 256)
  | Jmp (offset : Int)
  | JmpIf (cond : Fin 256) (offset : Int)
  | Call (funcReg : Fin 256) (argCount : Fin 256)
  | Return (startReg count : Fin 256)
  | NewObject (reg : Fin 256)
  | GetProp (dst obj key : Fin 256)
  | SetProp (obj key value : Fin 256)
  | Closure (reg : Fin 256) (funcIdx : Nat)
  | GetScope (dst : Fin 256) (varIdx : Nat)
  | SetScope (varIdx : Nat) (src : Fin 256)
  | NewArray (reg : Fin 256)
  | GetElem (dst array index : Fin 256)
  | SetElem (array index value : Fin 256)
  | TypeOf (dst src : Fin 256)
  | InstanceOf (dst obj ctor : Fin 256)
  | DeclareFunc (reg : Fin 256) (nameIdx : Nat) (paramCount : Fin 256)
  | DeclareVar (nameIdx : Nat)
  | UseStrict
  deriving DecidableEq

/-- One constructor per panic site of `rig_runtime`, plus the index panic of
`self.constants[const_idx]`. -/
inductive VMError where
  | invalidNegType
  | invalidBinaryTypes
  | invalidFunctionCall
  | returnWithoutCall
  | invalidGetProp
  | invalidSetProp
  | invalidGetElem
  | invalidSetElem
  | noActiveScope
  | constIndexOutOfBounds
  deriving DecidableEq

/-- Association-list model of `HashMap<String, Value>`: lookup takes the
first matching key. -/
def mapLookup {α : Type} (m : List (String × Value α)) (k : String) : Option (Value α) :=
  (m.find? (fun p => p.1 == k)).map (fun p => p.2)

/-- `HashMap::insert` with key replacement: prepending and looking up the
first match realises the same get/insert behaviour. -/
def mapInsert {α : Type} (m : List (String × Value α)) (k : String) (v : Value α) :
    List (String × Value α) :=
  (k, v) :: m

/-- Key synthesis of `format!("var_\x7b\x7d", idx)` used by the scope
instructions. -/
def varKey (idx : Nat) : String :=
  "var_" ++ toString idx

/-- Mirror of `impl PartialEq for Value` (`Rc::ptr_eq` is heap-identifier
equality). -/
def valueBeq {α : Type} (ops : F64 α) : Value α → Value α → Bool
  | .undefined, .undefined => true
  | .null, .null => true
  | .boolean a, .boolean b => a == b
  | .number a, .number b => ops.beq a b
  | .string a, .string b => a == b
  | .object a, .object b => a == b
  | .array a, .array b => a == b
  | .function a, .function b => a == b
  | _, _ => false

/-- Mirror of `impl PartialOrd for Value::partial_cmp`.  String order is the
byte-wise `Ord` of Rust `String`, which coincides with Lean's codepoint
comparison. -/
def valuePcmp {α : Type} (ops : F64 α) : Value α → Value α → Option Ordering
  | .number a, .number b => ops.pcmp a b
  | .string a, .string b => some (compare a b)
  | .boolean a, .boolean b => some (compare a b)
  | .function a, .function b => some (compare a b)
  | _, _ => none

/-- Rust's derived `PartialOrd::lt`: true exactly when `partial_cmp` is
`Some(Less)`; in particular false when the pair has no order. -/
def valueLt {α : Type} (ops : F64 α) (v w : Value α) : Bool :=
  match valuePcmp ops v w with
  | some .lt => true
  | _ => false

/-- Rust's derived `PartialOrd::le`: true exactly when `partial_cmp` is
`Some(Less)` or `Some(Equal)`. -/
def valueLe {α : Type} (ops : F64 α) (v w : Value α) : Bool :=
  match valuePcmp ops v w with
  | some .lt => true
  | some .eq => true
  | _ => false

/-- The `TypeOf` tag table. -/
def typeTag {α : Type} : Value α → String
  | .undefined => "undefined"
  | .null => "object"
  | .boolean _ => "boolean"
  | .number _ => "number"
  | .string _ => "string"
  | .object _ => "object"
  | .array _ => "object"
  | .function _ => "function"

/-- The simplified `InstanceOf` check: `(Object, Function)` or
`(Array, Function)`. -/
def isInstanceOf {α : Type} : Value α → Value α → Bool
  | .object _, .function _ => true
  | .array _, .function _ => true
  | _, _ => false

/-- `2 ^ 32` as an integer numeral. -/
def two32 : Int := 4294967296

/-- `2 ^ 31` as an integer numeral. -/
def two31 : Int := 2147483648

/-- `2 ^ 64` as an integer numeral. -/
def two64 : Int := 18446744073709551616

/-- `2 ^ 64` as a natural numeral, the `usize` modulus. -/
def usizeMod : Nat := 18446744073709551616

/-- Wrap an integer into the signed 32-bit range (an `as i32` cast). -/
def wrapI32 (n : Int) : Int :=
  let m := n.emod two32
  if m < two31 then m else m - two32

/-- An `i32 as usize` cast: sign extension, i.e. two's complement modulo
`2 ^ 64`. -/
def castUsize (n : Int) : Nat :=
  (n.emod two64).toNat

/-- The jump-target computation `(self.pc as i32 + offset) as usize` of the
`Jmp`/`JmpIf` handlers (release semantics: the addition wraps). -/
def jumpTarget (pc : Nat) (offset : Int) : Nat :=
  castUsize (wrapI32 (wrapI32 pc + offset))

/-- Mirror of `struct VM`, with the heaps for `Rc`-allocated objects and
arrays made explicit. -/
structure VMState (α : Type) where
  registers : Fin 256 → Value α
  constants : List (Value α)
  program : List Instruction
  pc : Nat
  callStack : List Nat
  scopes : List (List (String × Value α))
  strictMode : Bool
  objects : List (List (String × Value α))
  arrays : List (List (Value α))

/-- Point update of the register file. -/
def updReg {α : Type} (r : Fin 256 → Value α) (i : Fin 256) (v : Value α) :
    Fin 256 → Value α :=
  fun j => if j = i then v else r j

/-- `self.registers[r as usize] = v`. -/
def setReg {α : Type} (s : VMState α) (r : Fin 256) (v : Value α) : VMState α :=
  { s with registers := updReg s.registers r v }

/-- Mirror of `VM::binary_op`: both operands must be `Number`, otherwise the
`"Invalid types for binary operation"` panic. -/
def binArith {α : Type} (s : VMState α) (dst a b : Fin 256)
    (f : α → α → α) : Except VMError (VMState α) :=
  match s.registers a, s.registers b with
  | .number x, .number y => .ok (setReg s dst (.number (f x y)))
  | _, _ => .error .invalidBinaryTypes

/-- Mirror of `VM::new`: 256 registers of `Undefined`, pc 0, empty call
stack, a single empty global scope, strict mode off. -/
def VMState.new {α : Type} (program : List Instruction) (constants : List (Value α)) :
    VMState α :=
  { registers := fun _ => Value.undefined
    constants := constants
    program := program
    pc := 0
    callStack := []
    scopes := [ [] ]
    strictMode := false
    objects := []
    arrays := [] }

/-- Mirror of `VM::execute`, arm for arm; `ops` supplies the host `f64`
operations. -/
def execute {α : Type} (ops : F64 α) (i : Instruction) (s : VMState α) :
    Except VMError (VMState α) :=
  match i with
  | .LoadConst reg constIdx =>
    match s.constants.get? constIdx with
    | some v => .ok (setReg s reg v)
    | none => .error .constIndexOutOfBounds
  | .LoadUndefined reg => .ok (setReg s reg .undefined)
  | .LoadNull reg => .ok (setReg s reg .null)
  | .LoadBool reg value => .ok (setReg s reg (.boolean value))
  | .Move dst src => .ok (setReg s dst (s.registers src))
  | .Add dst a b => binArith s dst a b ops.add
  | .Sub dst a b => binArith s dst a b ops.sub
  | .Mul dst a b => binArith s dst a b ops.mul
  | .Div dst a b => binArith s dst a b ops.div
  | .Mod dst a b => binArith s dst a b ops.fmod
  | .Pow dst a b => binArith s dst a b ops.powf
  | .Neg dst a =>
    match s.registers a with
    | .number x => .ok (setReg s dst (.number (ops.neg x)))
    | _ => .error .invalidNegType
  | .Eq a b =>
    .ok (setReg s 0 (.boolean (valueBeq ops (s.registers a) (s.registers b))))
  | .Lt a b =>
    .ok (setReg s 0 (.boolean (valueLt ops (s.registers a) (s.registers b))))
  | .Le a b =>
    .ok (setReg s 0 (.boolean (valueLe ops (s.registers a) (s.registers b))))
  | .Jmp offset => .ok { s with pc := jumpTarget s.pc offset }
  | .JmpIf cond offset =>
    match s.registers cond with
    | .boolean true => .ok { s with pc := jumpTarget s.pc offset }
    | _ => .ok s
  | .Call funcReg _argCount =>
    match s.registers funcReg with
    | .function funcIdx =>
      .ok { s with callStack := s.pc :: s.callStack
                   pc := funcIdx
                   scopes := [] :: s.scopes }
    | _ => .error .invalidFunctionCall
  | .Return _startReg _count =>
    match s.callStack with
    | returnAddr :: rest =>
      .ok { s with pc := returnAddr
                   callStack := rest
                   scopes := s.scopes.tail }
    | [] => .error .returnWithoutCall
  | .NewObject reg =>
    .ok { s with registers := updReg s.registers reg (.object s.objects.length)
                 objects := s.objects ++ [ [] ] }
  | .GetProp dst obj key =>
    match s.registers obj, s.registers key with
    | .object oid, .string k =>
      .ok (setReg s dst ((mapLookup (s.objects.getD oid []) k).getD .undefined))
    | _, _ => .error .invalidGetProp
  | .SetProp obj key value =>
    match s.registers obj, s.registers key with
    | .object oid, .string k =>
      .ok { s with objects :=
              s.objects.set oid (mapInsert (s.objects.getD oid []) k (s.registers value)) }
    | _, _ => .error .invalidSetProp
  | .Closure reg funcIdx => .ok (setReg s reg (.function funcIdx))
  | .GetScope dst varIdx =>
    match s.scopes with
    | scope :: _ =>
      match mapLookup scope (varKey varIdx) with
      | some v => .ok (setReg s dst v)
      | none => .ok (setReg s dst .undefined)
    | [] => .error .noActiveScope
  | .SetScope varIdx src =>
    match s.scopes with
    | scope :: rest =>
      .ok { s with scopes := mapInsert scope (varKey varIdx) (s.registers src) :: rest }
    | [] => .error .noActiveScope
  | .NewArray reg =>
    .ok { s with registers := updReg s.registers reg (.array s.arrays.length)
                 arrays := s.arrays ++ [ [] ] }
  | .GetElem dst array index =>
    match s.registers array, s.registers index with
    | .array aid, .number fidx =>
      .ok (setReg s dst (((s.arrays.getD aid []).get? (ops.floorUsize fidx)).getD .undefined))
    | _, _ => .error .invalidGetElem
  | .SetElem array index value =>
    match s.registers array, s.registers index with
    | .array aid, .number fidx =>
      let idx := ops.floorUsize fidx
      let arr := s.arrays.getD aid []
      let grown :=
        if arr.length ≤ idx then arr ++ List.replicate (idx + 1 - arr.length) Value.undefined
        else arr
      .ok { s with arrays := s.arrays.set aid (grown.set idx (s.registers value)) }
    | _, _ => .error .invalidSetElem
  | .TypeOf dst src => .ok (setReg s dst (.string (typeTag (s.registers src))))
  | .InstanceOf dst obj ctor =>
    .ok (setReg s dst (.boolean (isInstanceOf (s.registers obj) (s.registers ctor))))
  | .DeclareFunc reg _nameIdx _paramCount => .ok (setReg s reg (.function s.pc))
  | .DeclareVar nameIdx =>
    match s.scopes with
    | scope :: rest =>
      .ok { s with scopes := mapInsert scope (varKey nameIdx) Value.undefined :: rest }
    | [] => .error .noActiveScope
  | .UseStrict => .ok { s with strictMode := true }

/-- Mirror of `VM::run`'s `while` loop, indexed by fuel: fetch at `pc` as
long as it is in range, execute, then increment `pc` (wrapping at the
`usize` width).  `none` means the fuel ran out; `some (.error e)` is a fatal
condition; `some (.ok s)` is the normal halt with the final state. -/
def run {α : Type} (ops : F64 α) : Nat → VMState α → Option (Except VMError (VMState α))
  | 0, _ => none
  | fuel + 1, s =>
    match s.program.get? s.pc with
    | none => some (.ok s)
    | some i =>
      match execute ops i s with
      | .ok s₂ => run ops fuel { s₂ with pc := (s₂.pc + 1) % usizeMod }
      | .error e => some (.error e)

/-- The instruction classes whose handlers assign the program counter
(`Jmp`, `JmpIf`, `Call`, `Return`). -/
def setsPC : Instruction → Bool
  | .Jmp _ => true
  | .JmpIf _ _ => true
  | .Call _ _ => true
  | .Return _ _ => true
  | _ => false

/-- Concrete instantiation of the abstract number operations at `α := Int`,
used only to evaluate witnesses and counterexamples on computable inputs
(it is a stand-in for `f64`, not a model of it). -/
def intOps : F64 Int where
  add := fun x y => x + y
  sub := fun x y => x - y
  mul := fun x y => x * y
  div := fun x y => x / y
  fmod := fun x y => x % y
  powf := fun x y => x * y
  neg := fun x => -x
  beq := fun x y => x == y
  pcmp := fun x y => some (compare x y)
  floorUsize := fun x => x.toNat

/-- Does a value carry the `Number` tag? -/
def isNumber {α : Type} : Value α → Bool
  | .number _ => true
  | _ => false

/-- Observation of a finished run: the final content of register `r`. -/
def regAfterRun (fuel : Nat) (s : VMState Int) (r : Fin 256) :
    Option (Except VMError (Value Int)) :=
  (run intOps fuel s).map (fun e => e.map (fun s₂ => s₂.registers r))

/-- Observation of a finished run: the final program counter. -/
def pcAfterRun (fuel : Nat) (s : VMState Int) : Option (Except VMError Nat) :=
  (run intOps fuel s).map (fun e => e.map VMState.pc)

/-- All registers `Undefined`, the initial register file. -/
def baseRegs : Fin 256 → Value Int :=
  fun _ => Value.undefined

/-- Program for the C1 counterexample: a forward jump of offset 1 over a
register write. -/
def c1Start : VMState Int :=
  VMState.new [ .Jmp 1, .LoadBool 5 true ] []

/-- Program for the C2 counterexample: a call to the function stored at
offset 1, with writes at offsets 1 and 2 telling apart where execution
resumes. -/
def c2Start : VMState Int :=
  { VMState.new [ .Call 3 0, .LoadBool 7 true, .LoadBool 8 true ] [] with
      registers := updReg baseRegs 3 (.function 1) }

/-- State whose registers 1 and 2 hold a `Number`/`String` pair, which has
no defined order. -/
def c3State : VMState Int :=
  { VMState.new [] [] with
      registers := updReg (updReg baseRegs 1 (.number 1)) 2 (.string "x") }

/-- State with a single pending call (saved counter 7) and two scopes. -/
def c5State : VMState Int :=
  { VMState.new [] [] with callStack := [ 7 ], scopes := [ [], [] ] }

/-- Program for C6: a jump whose target (6, after the increment) is far past
the end of the one-instruction program. -/
def c6Start : VMState Int :=
  VMState.new [ .Jmp 5 ] []

/-- Program for C6, conditional form: a taken `JmpIf` (register 1 holds
`Boolean true`) whose target is far past the end of the one-instruction
program. -/
def c6JmpIfStart : VMState Int :=
  { VMState.new [ .JmpIf 1 5 ] [] with registers := updReg baseRegs 1 (.boolean true) }

/-- State with one empty heap array in register 1, index `Number 3` in
register 2, and the value `Number 9` in register 4. -/
def c7State : VMState Int :=
  { VMState.new [] [] with
      registers := updReg (updReg (updReg baseRegs 1 (.array 0)) 2 (.number 3)) 4 (.number 9)
      arrays := [ [] ] }

/-- State with `Number 5` and `Number 7` in registers 0 and 1. -/
def w8State : VMState Int :=
  { VMState.new [] [] with
      registers := updReg (updReg baseRegs 0 (.number 5)) 1 (.number 7) }

/-- State with `Boolean false` in register 1. -/
def c9State : VMState Int :=
  { VMState.new [] [] with registers := updReg baseRegs 1 (.boolean false) }

/-- State with `Boolean true` in register 1. -/
def c9TrueState : VMState Int :=
  { VMState.new [] [] with registers := updReg baseRegs 1 (.boolean true) }

/-- Helper: `binary_op` hits the `"Invalid types for binary operation"`
panic whenever either operand register does not hold a `Number`. -/
theorem binArith_not_number {α : Type} (s : VMState α) (dst a b : Fin 256) (f : α → α → α)
    (h : isNumber (s.registers a) = false ∨ isNumber (s.registers b) = false) :
    binArith s dst a b f = .error .invalidBinaryTypes := by
  unfold binArith
  rcases hva : s.registers a with _ | _ | _ | x | _ | _ | _ | _ <;>
    rcases hvb : s.registers b with _ | _ | _ | y | _ | _ | _ | _ <;>
    simp_all [isNumber]

/-- Helper: setting the last slot of a replicated block. -/
theorem replicate_set_last {β : Type} (u v : β) (p : Nat) :
    (List.replicate (p + 1) u).set p v = List.replicate p u ++ [ v ] := by
  induction p with
  | zero => rfl
  | succ p ih =>
    rw [List.replicate_succ (n := p + 1), List.set_cons_succ, ih,
      List.replicate_succ (n := p)]
    rfl

/-- Helper: the `resize`-then-assign pattern of `SetElem` produces the old
elements, a block of padding, and the new value at the end. -/
theorem set_append_replicate {β : Type} (l : List β) (u v : β) (p : Nat)
    (h : l.length ≤ p) :
    (l ++ List.replicate (p + 1 - l.length) u).set p v
      = l ++ (List.replicate (p - l.length) u ++ [ v ]) := by
  induction l generalizing p with
  | nil =>
    simpa using replicate_set_last u v p
  | cons a as ih =>
    cases p with
    | zero => simp at h
    | succ p =>
      simp only [List.length_cons] at h ⊢
      have h1 : p + 1 + 1 - (as.length + 1) = p + 1 - as.length := by omega
      have h2 : p + 1 - (as.length + 1) = p - as.length := by omega
      rw [h1, h2, List.cons_append, List.set_cons_succ, ih p (by omega), List.cons_append]

/-- Helper: an instruction whose handler does not assign the program counter
leaves it unchanged (the increment in `run` is the only way it advances). -/
theorem execute_preserves_pc {α : Type} (ops : F64 α) (i : Instruction) (s s₂ : VMState α)
    (hset : setsPC i = false) (hexec : execute ops i s = .ok s₂) : s₂.pc = s.pc := by
  cases i <;> simp [setsPC] at hset <;>
    (simp only [execute, binArith] at hexec
     repeat' split at hexec
     all_goals
       first
       | exact (Except.noConfusion hexec)
       | (injection hexec with h
          subst h
          rfl))

/-- C3 counterexample: the claim says `Lt` on a `Number`/`String` pair (no
defined order) is fatal, but the code returns normally and writes
`Boolean(false)` into register 0: Rust's derived `PartialOrd::lt` is `false`
when `partial_cmp` is `None`. -/
theorem C3_counterexample :
    execute intOps (.Lt 1 2) c3State = .ok (setReg c3State 0 (.boolean false)) := rfl

/-- C3 (amended): executing `Lt` or `Le` on an operand pair with no defined
order (`partial_cmp` returns `None`) is not fatal; both silently write
`Boolean(false)` into register 0. -/
theorem C3_unordered_writes_false {α : Type} (ops : F64 α) (s : VMState α) (a b : Fin 256)
    (h : valuePcmp ops (s.registers a) (s.registers b) = none) :
    execute ops (.Lt a b) s = .ok (setReg s 0 (.boolean false))
    ∧ execute ops (.Le a b) s = .ok (setReg s 0 (.boolean false)) := by
  constructor <;> simp only [execute, valueLt, valueLe, h]

/-- C3 witness: registers 1 and 2 of `c3State` hold an unordered pair and
`Le` writes `Boolean(false)` into register 0. -/
theorem C3_witness :
    valuePcmp intOps (c3State.registers 1) (c3State.registers 2) = none
    ∧ execute intOps (.Le 1 2) c3State = .ok (setReg c3State 0 (.boolean false)) :=
  ⟨rfl, (C3_unordered_writes_false intOps c3State 1 2 rfl).2⟩

/-- C4: every `Eq`, `Lt`, `Le` writes its Boolean result into register 0,
whatever the operand registers are; the instructions carry no destination
operand, and all other registers are untouched (the result state is exactly
`setReg s 0 _`). -/
theorem C4_cmp_writes_reg0 {α : Type} (ops : F64 α) (s : VMState α) (a b : Fin 256) :
    execute ops (.Eq a b) s
      = .ok (setReg s 0 (.boolean (valueBeq ops (s.registers a) (s.registers b))))
    ∧ execute ops (.Lt a b) s
      = .ok (setReg s 0 (.boolean (valueLt ops (s.registers a) (s.registers b))))
    ∧ execute ops (.Le a b) s
      = .ok (setReg s 0 (.boolean (valueLe ops (s.registers a) (s.registers b)))) :=
  ⟨rfl, rfl, rfl⟩

/-- C5: `Return` with a non-empty call stack pops exactly the one saved
counter into `pc` and pops one scope, with registers untouched and the
`start_reg`/`count` operands ignored (the result does not depend on them);
`Return` on an empty call stack is the fatal `"Return without call"`. -/
theorem C5_return_semantics {α : Type} (ops : F64 α) (s : VMState α) (startReg count : Fin 256) :
    (∀ addr rest, s.callStack = addr :: rest →
      execute ops (.Return startReg count) s
        = .ok { s with pc := addr, callStack := rest, scopes := s.scopes.tail })
    ∧ (s.callStack = [] →
      execute ops (.Return startReg count) s = .error .returnWithoutCall) := by
  constructor
  · intro addr rest h
    simp only [execute, h]
  · intro h
    simp only [execute, h]

/-- C5 witness: a `Return` from `c5State` restores counter 7 and drops one
scope regardless of its operands, and a `Return` in the initial state (empty
call stack) is fatal. -/
theorem C5_witness :
    execute intOps (.Return 4 2) c5State
      = .ok { c5State with pc := 7, callStack := [], scopes := [ [] ] }
    ∧ execute intOps (.Return 0 0) (VMState.new [] []) = .error .returnWithoutCall :=
  ⟨(C5_return_semantics intOps c5State 4 2).1 7 [] rfl,
   (C5_return_semantics intOps (VMState.new [] []) 0 0).2 rfl⟩

/-- C8: the six binary arithmetic instructions and `Neg` require `Number`
operands — any other operand type is the fatal type panic — and on `Number`
operands the destination receives exactly the host double result of the
corresponding operation (the `F64` interface is the host's IEEE-754
arithmetic; the interpreter applies it unmodified). -/
theorem C8_arith_semantics {α : Type} (ops : F64 α) (s : VMState α) (dst a b : Fin 256) :
    (∀ x y, s.registers a = .number x → s.registers b = .number y →
      execute ops (.Add dst a b) s = .ok (setReg s dst (.number (ops.add x y)))
      ∧ execute ops (.Sub dst a b) s = .ok (setReg s dst (.number (ops.sub x y)))
      ∧ execute ops (.Mul dst a b) s = .ok (setReg s dst (.number (ops.mul x y)))
      ∧ execute ops (.Div dst a b) s = .ok (setReg s dst (.number (ops.div x y)))
      ∧ execute ops (.Mod dst a b) s = .ok (setReg s dst (.number (ops.fmod x y)))
      ∧ execute ops (.Pow dst a b) s = .ok (setReg s dst (.number (ops.powf x y))))
    ∧ (isNumber (s.registers a) = false ∨ isNumber (s.registers b) = false →
      execute ops (.Add dst a b) s = .error .invalidBinaryTypes
      ∧ execute ops (.Sub dst a b) s = .error .invalidBinaryTypes
      ∧ execute ops (.Mul dst a b) s = .error .invalidBinaryTypes
      ∧ execute ops (.Div dst a b) s = .error .invalidBinaryTypes
      ∧ execute ops (.Mod dst a b) s = .error .invalidBinaryTypes
      ∧ execute ops (.Pow dst a b) s = .error .invalidBinaryTypes)
    ∧ (∀ x, s.registers a = .number x →
      execute ops (.Neg dst a) s = .ok (setReg s dst (.number (ops.neg x))))
    ∧ (isNumber (s.registers a) = false →
      execute ops (.Neg dst a) s = .error .invalidNegType) := by
  refine ⟨?_, ?_, ?_, ?_⟩
  · intro x y hx hy
    refine ⟨?_, ?_, ?_, ?_, ?_, ?_⟩ <;> simp only [execute, binArith, hx, hy]
  · intro h
    exact ⟨binArith_not_number s dst a b _ h, binArith_not_number s dst a b _ h,
      binArith_not_number s dst a b _ h, binArith_not_number s dst a b _ h,
      binArith_not_number s dst a b _ h, binArith_not_number s dst a b _ h⟩
  · intro x hx
    simp only [execute, hx]
  · intro h
    rcases hva : s.registers a with _ | _ | _ | x | _ | _ | _ | _ <;>
      simp_all [execute, isNumber]

/-- C8 witness: on `Number(5)` and `Number(7)` the `Add`/`Mod`/`Neg` results
land in the destination register, and `Add` against the `Undefined` in
register 9 is the fatal binary-type panic. -/
theorem C8_witness :
    execute intOps (.Add 2 0 1) w8State = .ok (setReg w8State 2 (.number 12))
    ∧ execute intOps (.Mod 2 0 1) w8State = .ok (setReg w8State 2 (.number 5))
    ∧ execute intOps (.Neg 3 0) w8State = .ok (setReg w8State 3 (.number (-5)))
    ∧ execute intOps (.Add 2 0 9) w8State = .error .invalidBinaryTypes :=
  ⟨((C8_arith_semantics intOps w8State 2 0 1).1 5 7 rfl rfl).1,
   ((C8_arith_semantics intOps w8State 2 0 1).1 5 7 rfl rfl).2.2.2.2.1,
   (C8_arith_semantics intOps w8State 3 0 1).2.2.1 5 rfl,
   ((C8_arith_semantics intOps w8State 2 0 9).2.1 (Or.inr rfl)).1⟩

/-- C9: `JmpIf` adds its offset to the counter exactly when the condition
register holds `Boolean(true)`; for every other value the state is returned
unchanged — no truthiness coercion. -/
theorem C9_jmpif_exact_true {α : Type} (ops : F64 α) (s : VMState α) (cond : Fin 256)
    (offset : Int) :
    (s.registers cond = .boolean true →
      execute ops (.JmpIf cond offset) s = .ok { s with pc := jumpTarget s.pc offset })
    ∧ (s.registers cond ≠ .boolean true →
      execute ops (.JmpIf cond offset) s = .ok s) := by
  constructor
  · intro h
    simp only [execute, h]
  · intro h
    rcases hv : s.registers cond with _ | _ | b | _ | _ | _ | _ | _
    case boolean =>
      cases b
      · simp only [execute, hv]
      · exact absurd hv h
    all_goals simp only [execute, hv]

/-- C9 witness: `Boolean(true)` jumps (counter becomes 3 for offset 3 at
counter 0) and `Boolean(false)` leaves the state untouched. -/
theorem C9_witness :
    execute intOps (.JmpIf 1 3) c9TrueState = .ok { c9TrueState with pc := 3 }
    ∧ execute intOps (.JmpIf 1 3) c9State = .ok c9State :=
  ⟨(C9_jmpif_exact_true intOps c9TrueState 1 3).1 rfl,
   (C9_jmpif_exact_true intOps c9State 1 3).2 (by decide)⟩

/-- C10: with a non-empty scope stack, `GetScope` for a synthesized key
absent from the top scope writes `Undefined` and never faults (a present key
is also non-fatal); only an empty scope stack raises the
`"No active scope"` fatal condition. -/
theorem C10_getscope_miss {α : Type} (ops : F64 α) (s : VMState α) (dst : Fin 256)
    (varIdx : Nat) :
    (∀ top rest, s.scopes = top :: rest →
      (mapLookup top (varKey varIdx) = none →
        execute ops (.GetScope dst varIdx) s = .ok (setReg s dst .undefined))
      ∧ ∃ s₂, execute ops (.GetScope dst varIdx) s = .ok s₂)
    ∧ (s.scopes = [] → execute ops (.GetScope dst varIdx) s = .error .noActiveScope) := by
  constructor
  · intro top rest h
    constructor
    · intro hl
      simp only [execute, h, hl]
    · rcases hl : mapLookup top (varKey varIdx) with _ | v
      · exact ⟨setReg s dst .undefined, by simp only [execute, h, hl]⟩
      · exact ⟨setReg s dst v, by simp only [execute, h, hl]⟩
  · intro h
    simp only [execute, h]

/-- C10 witness: in the freshly constructed VM the global scope is empty, so
`GetScope 0` writes `Undefined` into the destination without fault. -/
theorem C10_witness :
    execute intOps (.GetScope 4 0) (VMState.new [] [])
      = .ok (setReg (VMState.new [] []) 4 .undefined) :=
  ((C10_getscope_miss intOps (VMState.new [] []) 4 0).1 [] [] rfl).1 rfl

/-- C1 counterexample: with the program `[Jmp 1, LoadBool r5 true]`, the
claim puts the next fetch at counter 0 + 1 = 1, so the `LoadBool` would run
and register 5 would hold `Boolean(true)` at the halt; the loop instead
increments after the jump and resumes at 2, so the run halts with register 5
still `Undefined`. -/
theorem C1_counterexample :
    regAfterRun 3 c1Start 5 = some (.ok Value.undefined) := rfl

/-- C1 (amended): the loop increments the counter by one (wrapping at the
`usize` width) after every executed instruction, including those that set
the counter; handlers outside `Jmp`/`JmpIf`/`Call`/`Return` leave the
counter unchanged, so they resume at counter + 1, and after `Jmp(offset)`
the next fetch happens at `jumpTarget(counter, offset) + 1`, not at the
target itself. -/
theorem C1_pc_advance {α : Type} (ops : F64 α) (s s₂ : VMState α) (fuel : Nat)
    (i : Instruction)
    (hfetch : s.program.get? s.pc = some i)
    (hexec : execute ops i s = .ok s₂) :
    run ops (fuel + 1) s = run ops fuel { s₂ with pc := (s₂.pc + 1) % usizeMod }
    ∧ (setsPC i = false → s₂.pc = s.pc)
    ∧ (∀ offset, i = .Jmp offset →
        (Except.ok s₂ : Except VMError (VMState α))
          = .ok { s with pc := jumpTarget s.pc offset }) := by
  refine ⟨?_, fun h => execute_preserves_pc ops i s s₂ h hexec, ?_⟩
  · simp only [run, hfetch, hexec]
  · rintro offset rfl
    rw [← hexec]
    simp only [execute]

/-- C1 witness: one cycle on the program `[LoadNull r0]` continues at
counter 1. -/
theorem C1_witness :
    run intOps 1 (VMState.new [ Instruction.LoadNull 0 ] [])
      = run intOps 0 { setReg (VMState.new [ Instruction.LoadNull 0 ] []) 0 Value.null with
                         pc := 1 } :=
  (C1_pc_advance intOps (VMState.new [ Instruction.LoadNull 0 ] []) _ 0 _ rfl rfl).1

/-- C2 counterexample: calling the function at offset 1 must, per the claim,
execute the instruction at offset 1 next (`LoadBool r7 true`); the loop
increment makes execution resume at offset 2 instead, so the run halts with
register 7 still `Undefined` while register 8 (written at offset 2) holds
`Boolean(true)`. -/
theorem C2_counterexample :
    regAfterRun 4 c2Start 7 = some (.ok Value.undefined)
    ∧ regAfterRun 4 c2Start 8 = some (.ok (Value.boolean true)) :=
  ⟨rfl, rfl⟩

/-- C2 (amended): `Call` on a `Function(f)` register pushes the current
counter onto the call stack, sets the counter to `f`, and pushes a fresh
empty scope — but the loop increment then applies, so the instruction at
`f + 1` (mod the `usize` width) is the next one executed, not the one at
`f`; `Call` on a non-`Function` register is the fatal
`"Invalid function call"`. -/
theorem C2_call_semantics {α : Type} (ops : F64 α) (s : VMState α)
    (funcReg argCount : Fin 256) :
    (∀ f, s.registers funcReg = .function f →
      execute ops (.Call funcReg argCount) s
        = .ok { s with callStack := s.pc :: s.callStack, pc := f, scopes := [] :: s.scopes }
      ∧ ∀ fuel, s.program.get? s.pc = some (.Call funcReg argCount) →
          run ops (fuel + 1) s
            = run ops fuel
                { s with callStack := s.pc :: s.callStack, pc := (f + 1) % usizeMod,
                         scopes := [] :: s.scopes })
    ∧ ((∀ f, s.registers funcReg ≠ .function f) →
      execute ops (.Call funcReg argCount) s = .error .invalidFunctionCall) := by
  constructor
  · intro f hf
    have hex : execute ops (.Call funcReg argCount) s
        = .ok { s with callStack := s.pc :: s.callStack, pc := f, scopes := [] :: s.scopes } := by
      simp only [execute, hf]
    refine ⟨hex, fun fuel hfetch => ?_⟩
    simp only [run, hfetch, hex]
  · intro hnf
    rcases hv : s.registers funcReg with _ | _ | _ | _ | _ | _ | _ | fidx
    case function => exact absurd hv (hnf fidx)
    all_goals simp only [execute, hv]

/-- C2 witness: the `Call` in `c2Start` (function register 3 holding
`Function(1)`) pushes counter 0, jumps to 1, and pushes an empty scope. -/
theorem C2_witness :
    execute intOps (.Call 3 0) c2Start
      = .ok { c2Start with callStack := [ 0 ], pc := 1, scopes := [ [], [] ] } :=
  ((C2_call_semantics intOps c2Start 3 0).1 1 rfl).1

/-- C6 counterexample: the program `[Jmp 5]` jumps far out of range; the
claim demands a distinguishable error at the next fetch, but the run ends as
a normal halt (`ok`, counter 6), indistinguishable from running off the end
of the program. -/
theorem C6_counterexample :
    pcAfterRun 3 c6Start = some (.ok 6) := rfl

/-- C6 (amended): a `Jmp`, or a `JmpIf` whose condition register holds
exactly `Boolean(true)` (a taken `JmpIf`), whose (incremented) target is at
or past the end of the program makes the `while` condition fail at the next
fetch, so the run terminates normally with no surfaced error — an
out-of-range jump is a silent halt, not a fatal condition (a negative `i32`
target wraps to a huge `usize`, hitting the same normal exit). -/
theorem C6_oob_jump_silent_halt {α : Type} (ops : F64 α) (s : VMState α) (offset : Int)
    (fuel : Nat)
    (hfetch : s.program.get? s.pc = some (.Jmp offset)
      ∨ ∃ cond, s.program.get? s.pc = some (.JmpIf cond offset)
          ∧ s.registers cond = .boolean true)
    (hoob : s.program.length ≤ (jumpTarget s.pc offset + 1) % usizeMod) :
    run ops (fuel + 2) s
      = some (.ok { s with pc := (jumpTarget s.pc offset + 1) % usizeMod }) := by
  have h2 : s.program.get? ((jumpTarget s.pc offset + 1) % usizeMod) = none :=
    List.get?_eq_none.mpr hoob
  show run ops (fuel + 1 + 1) s = _
  rcases hfetch with hf | ⟨cond, hf, hc⟩
  · have hex : execute ops (.Jmp offset) s = .ok { s with pc := jumpTarget s.pc offset } := by
      simp only [execute]
    simp only [run, hf, hex, h2]
  · have hex : execute ops (.JmpIf cond offset) s
        = .ok { s with pc := jumpTarget s.pc offset } := by
      simp only [execute, hc]
    simp only [run, hf, hex, h2]

/-- C6 witness: `[Jmp 5]` and the taken `[JmpIf r1 5]` (register 1 holding
`Boolean true`) both halt normally with counter 6 after two loop
iterations. -/
theorem C6_witness :
    run intOps 2 c6Start = some (.ok { c6Start with pc := 6 })
    ∧ run intOps 2 c6JmpIfStart = some (.ok { c6JmpIfStart with pc := 6 }) :=
  ⟨C6_oob_jump_silent_halt intOps c6Start 5 0 (Or.inl rfl) (by decide),
   C6_oob_jump_silent_halt intOps c6JmpIfStart 5 0 (Or.inr ⟨1, rfl, rfl⟩) (by decide)⟩

/-- C7: with an `Array` in the array register and a `Number` index whose
integer position is at or past the current length, `SetElem` grows the array
to length position + 1, pads the new intermediate slots with `Undefined`,
and writes the value at the target position; `GetElem` at that out-of-range
position writes `Undefined` to the destination without fault. -/
theorem C7_elem_growth {α : Type} (ops : F64 α) (s : VMState α)
    (dst arrayReg idxReg valReg : Fin 256) (aid : Nat) (x : α)
    (harr : s.registers arrayReg = .array aid)
    (hidx : s.registers idxReg = .number x)
    (hlen : (s.arrays.getD aid []).length ≤ ops.floorUsize x) :
    execute ops (.SetElem arrayReg idxReg valReg) s
      = .ok { s with arrays := (s.arrays.set aid
          ((s.arrays.getD aid []) ++
            (List.replicate (ops.floorUsize x - (s.arrays.getD aid []).length) Value.undefined
              ++ [ s.registers valReg ]))) }
    ∧ ((s.arrays.getD aid []) ++
        (List.replicate (ops.floorUsize x - (s.arrays.getD aid []).length) Value.undefined
          ++ [ s.registers valReg ])).length = ops.floorUsize x + 1
    ∧ execute ops (.GetElem dst arrayReg idxReg) s = .ok (setReg s dst Value.undefined) := by
  refine ⟨?_, ?_, ?_⟩
  · simp only [execute, harr, hidx]
    rw [if_pos hlen, set_append_replicate _ _ _ _ hlen]
  · simp only [List.length_append, List.length_replicate, List.length_cons, List.length_nil]
    omega
  · simp only [execute, harr, hidx, List.get?_eq_none.mpr hlen, Option.getD_none]

/-- C7 witness: on the empty heap array, `SetElem` at position 3 yields
`[Undefined, Undefined, Undefined, Number 9]` (length 4), and `GetElem` at
position 3 writes `Undefined` without fault. -/
theorem C7_witness :
    execute intOps (.SetElem 1 2 4) c7State
      = .ok { c7State with
                arrays := [ [ Value.undefined, Value.undefined, Value.undefined,
                              Value.number 9 ] ] }
    ∧ execute intOps (.GetElem 6 1 2) c7State = .ok (setReg c7State 6 Value.undefined) :=
  ⟨(C7_elem_growth intOps c7State 6 1 2 4 0 3 rfl rfl (by decide)).1,
   (C7_elem_growth intOps c7State 6 1 2 4 0 3 rfl rfl (by decide)).2.2⟩

end Rig
